import Mathlib

/-!
Verification development for the training controller in `train.py` of the
`atmt` repository: the dual-direction training/validation loop and its
alignment-consistency regularizer.

The embedding is a shallow one over exact rational arithmetic:

* a batched rank-3 tensor of shape `[B, n, m]` is a function
  `Fin B → Matrix (Fin n) (Fin m) ℚ`;
* `torch.bmm` is batchwise matrix multiplication, `torch.norm (p=1)` is a sum
  of absolute values, `torch.diagonal (dim1=1, dim2=2)` reads entries with
  equal row and column index (there are `min n m` of them per batch element);
* Python `len` on a tensor returns the size of its leading dimension, so in
  `calculate_diff` the quantity `len(diag)` is `B` (its shape is
  `[B, min n m]`) and `len(diff)` after `view(-1)` is `B * n * m`;
* gradient flow is modelled by forward-mode dual numbers (`Dual` below):
  the `.cpu().detach().numpy()` round trip of `get_diff` zeroes the
  derivative component;
* the early-stopping state of the controller keeps `best_validate` as an
  `Option ℚ` where `none` stands for the initial `float('inf')`.
-/

namespace ATMT

open Matrix

/-- Batched rank-3 tensor of shape `[B, n, m]` with rational entries. -/
abbrev Tensor3 (B n m : ℕ) : Type := Fin B → Matrix (Fin n) (Fin m) ℚ

/-- `torch.bmm`: batchwise matrix product. -/
def bmm {B n k m : ℕ} (x : Tensor3 B n k) (y : Tensor3 B k m) : Tensor3 B n m :=
  fun b => x b * y b

/-- `tensor.transpose(0, 1)` applied to an `[S, B, H]` tensor, giving the
batch-major `[B, S, H]` layout (lines 59, 66-67 of `train.py`). -/
def transpose01 {S B H : ℕ} (t : Fin S → Fin B → Fin H → ℚ) : Tensor3 B S H :=
  fun b => Matrix.of fun s h => t s b h

/-- Multiplication of every batch element by a scalar `c`. -/
def scaleT {B n m : ℕ} (c : ℚ) (t : Tensor3 B n m) : Tensor3 B n m :=
  fun b => c • t b

/-- `diff = torch.bmm(acontext, src_out_other.transpose(1, 2))`
(lines 59-60 of `train.py`): the batch of pairwise inner-product matrices
`M = A * B_otherᵀ` of shape `[B, n, m]`. -/
def diffM {B n m H : ℕ} (acontext : Tensor3 B n H) (other : Tensor3 B m H) :
    Tensor3 B n m :=
  fun b => acontext b * (other b)ᵀ

/-- `torch.norm(diag, p=1)` where `diag = torch.diagonal(diff, dim1=1, dim2=2)`
(lines 61-62): the sum of `|M b i i|` over the `min n m` diagonal positions of
every batch element.  The guard `(i : ℕ) < m` selects exactly those row
indices that also are column indices. -/
def diagL1 {B n m H : ℕ} (a : Tensor3 B n H) (o : Tensor3 B m H) : ℚ :=
  ∑ b, ∑ i : Fin n, if h : (i : ℕ) < m then |diffM a o b i ⟨i, h⟩| else 0

/-- `torch.norm(diff.view(-1), p=1)` (lines 63-64): the sum of the absolute
values of all `B * n * m` entries. -/
def totalL1 {B n m H : ℕ} (a : Tensor3 B n H) (o : Tensor3 B m H) : ℚ :=
  ∑ b, ∑ i, ∑ j, |diffM a o b i j|

/-- `numerator = torch.norm(diag, p=1)/len(diag)` (line 62).  `diag` has shape
`[B, min n m]`, so Python's `len(diag)` is `B`. -/
def cd_numerator {B n m H : ℕ} (a : Tensor3 B n H) (o : Tensor3 B m H) : ℚ :=
  diagL1 a o / (B : ℚ)

/-- `denominator = (torch.norm(diff, p=1) - torch.norm(diag, p=1)) /
(len(diff) - len(diag))` (line 64).  After `view(-1)` the length of `diff` is
`B * n * m`, and `len(diag)` is `B`. -/
def cd_denominator {B n m H : ℕ} (a : Tensor3 B n H) (o : Tensor3 B m H) : ℚ :=
  (totalL1 a o - diagL1 a o) / ((B : ℚ) * n * m - (B : ℚ))

/-- `calculate_diff` (lines 58-65 of `train.py`): the ratio
`numerator/denominator` for the pair matrix `M = acontext * otherᵀ`. -/
def calculate_diff {B n m H : ℕ} (a : Tensor3 B n H) (o : Tensor3 B m H) : ℚ :=
  cd_numerator a o / cd_denominator a o

/-- The value pair computed by `get_diff` (lines 57-72 of `train.py`):
`d = calculate_diff(bmm(att, src_out'), src_out_rev')` and
`d_rev = calculate_diff(bmm(att_rev, src_out_rev'), src_out')`, where the
primed tensors are the `transpose(0, 1)` batch-major encoder outputs. -/
def get_diff {B T S T2 S2 H : ℕ} (att : Tensor3 B T S)
    (src_out : Fin S → Fin B → Fin H → ℚ) (att_rev : Tensor3 B T2 S2)
    (src_out_rev : Fin S2 → Fin B → Fin H → ℚ) : ℚ × ℚ :=
  (calculate_diff (bmm att (transpose01 src_out)) (transpose01 src_out_rev),
   calculate_diff (bmm att_rev (transpose01 src_out_rev)) (transpose01 src_out))

/-- The per-pair ratio as the specification document words it: the numerator
divided by the number of diagonal elements (`B * min n m`) and the denominator
divided by the number of off-diagonal elements (`B * n * m - B * min n m`). -/
def spec_calculate_diff {B n m H : ℕ} (a : Tensor3 B n H) (o : Tensor3 B m H) : ℚ :=
  (diagL1 a o / ((B : ℚ) * (min n m : ℕ))) /
    ((totalL1 a o - diagL1 a o) / ((B : ℚ) * n * m - (B : ℚ) * (min n m : ℕ)))

/-! ### Scaling and sign lemmas for the regularizer -/

lemma diffM_scaleT {B n m H : ℕ} (c : ℚ) (a : Tensor3 B n H) (o : Tensor3 B m H)
    (b : Fin B) (i : Fin n) (j : Fin m) :
    diffM (scaleT c a) o b i j = c * diffM a o b i j := by
  simp [diffM, scaleT, Matrix.smul_mul, Matrix.smul_apply, smul_eq_mul]

lemma diagL1_scaleT {B n m H : ℕ} (c : ℚ) (hc : 0 ≤ c) (a : Tensor3 B n H)
    (o : Tensor3 B m H) : diagL1 (scaleT c a) o = c * diagL1 a o := by
  unfold diagL1
  rw [Finset.mul_sum]
  refine Finset.sum_congr rfl fun b _ => ?_
  rw [Finset.mul_sum]
  refine Finset.sum_congr rfl fun i _ => ?_
  by_cases h : (i : ℕ) < m
  · simp [h, diffM_scaleT, abs_mul, abs_of_nonneg hc]
  · simp [h]

lemma totalL1_scaleT {B n m H : ℕ} (c : ℚ) (hc : 0 ≤ c) (a : Tensor3 B n H)
    (o : Tensor3 B m H) : totalL1 (scaleT c a) o = c * totalL1 a o := by
  unfold totalL1
  simp only [diffM_scaleT, abs_mul, abs_of_nonneg hc, ← Finset.mul_sum]

lemma cd_numerator_scaleT {B n m H : ℕ} (c : ℚ) (hc : 0 ≤ c) (a : Tensor3 B n H)
    (o : Tensor3 B m H) : cd_numerator (scaleT c a) o = c * cd_numerator a o := by
  unfold cd_numerator
  rw [diagL1_scaleT c hc, mul_div_assoc]

lemma cd_denominator_scaleT {B n m H : ℕ} (c : ℚ) (hc : 0 ≤ c) (a : Tensor3 B n H)
    (o : Tensor3 B m H) : cd_denominator (scaleT c a) o = c * cd_denominator a o := by
  unfold cd_denominator
  rw [diagL1_scaleT c hc, totalL1_scaleT c hc, ← mul_sub, mul_div_assoc]

lemma calculate_diff_scaleT {B n m H : ℕ} (c : ℚ) (hc : 0 < c) (a : Tensor3 B n H)
    (o : Tensor3 B m H) : calculate_diff (scaleT c a) o = calculate_diff a o := by
  unfold calculate_diff
  rw [cd_numerator_scaleT c hc.le, cd_denominator_scaleT c hc.le,
    mul_div_mul_left _ _ hc.ne']

lemma diagL1_nonneg {B n m H : ℕ} (a : Tensor3 B n H) (o : Tensor3 B m H) :
    0 ≤ diagL1 a o := by
  refine Finset.sum_nonneg fun b _ => Finset.sum_nonneg fun i _ => ?_
  by_cases h : (i : ℕ) < m
  · simp [h, abs_nonneg]
  · simp [h]

lemma calculate_diff_nonneg {B n m H : ℕ} (a : Tensor3 B n H) (o : Tensor3 B m H)
    (hden : 0 < cd_denominator a o) : 0 ≤ calculate_diff a o :=
  div_nonneg (div_nonneg (diagL1_nonneg a o) (Nat.cast_nonneg B)) hden.le

lemma bmm_scaleT {B n k m : ℕ} (c : ℚ) (x : Tensor3 B n k) (y : Tensor3 B k m) :
    bmm (scaleT c x) y = scaleT c (bmm x y) := by
  funext b
  exact Matrix.smul_mul c (x b) (y b)

/-! ### Forward-mode gradient semantics and loss assembly

A `Dual` is a scalar of the autodiff graph together with its derivative with
respect to an arbitrary but fixed model parameter.  Graph operations
(`+`, division by a batch-size constant) propagate the derivative; the
`.cpu().detach().numpy()` / `torch.from_numpy` round trip of `get_diff`
(lines 75-79 of `train.py`) produces a tensor with no gradient history, i.e.
derivative `0`. -/

structure Dual where
  val : ℚ
  grad : ℚ
deriving DecidableEq

instance : Add Dual :=
  ⟨fun x y => ⟨x.val + y.val, x.grad + y.grad⟩⟩

lemma Dual.add_def (x y : Dual) : x + y = ⟨x.val + y.val, x.grad + y.grad⟩ := rfl

/-- Division of a graph scalar by a graph constant (the sequence counts
`len(sample['src_lengths'])` and `len(tgt_lengths)` are Python ints). -/
def Dual.divC (x : Dual) (c : ℚ) : Dual :=
  ⟨x.val / c, x.grad / c⟩

/-- The `.cpu().detach().numpy()` / `torch.from_numpy` round trip: the value
survives, the gradient history does not. -/
def Dual.detach (x : Dual) : Dual :=
  ⟨x.val, 0⟩

/-- Lines 75-79 of `train.py`: both regularizer outputs are routed through the
host round trip before they are returned, so the pair entering the loss is
detached. -/
def get_diff_returned (d0 drev0 : Dual) : Dual × Dual :=
  (d0.detach, drev0.detach)

/-- The training loss of lines 197-199:
`criterion(output, tgt_tokens)/len(src_lengths) + d +
 criterion(output_rev, src_tokens)/len(tgt_lengths) + d_rev`,
with `d`, `d_rev` the detached pair returned by `get_diff`. -/
def train_loss (ce : Dual) (nseq : ℚ) (ce_rev : Dual) (nseq_rev : ℚ)
    (d0 drev0 : Dual) : Dual :=
  ce.divC nseq + (get_diff_returned d0 drev0).1 + ce_rev.divC nseq_rev +
    (get_diff_returned d0 drev0).2

/-- The per-batch validation loss of lines 275-276:
`criterion(output, tgt_tokens) + d +
 criterion(output_rev, src_tokens)/len(tgt_lengths) + d_rev`.
The first cross-entropy term is not divided by the sequence count. -/
def valid_loss (ce : Dual) (ce_rev : Dual) (nseq_rev : ℚ)
    (d0 drev0 : Dual) : Dual :=
  ce + (get_diff_returned d0 drev0).1 + ce_rev.divC nseq_rev +
    (get_diff_returned d0 drev0).2

/-! ### Optimizer frame model

Model parameters of the two models live in one store indexed by parameter
identity; a parameter carries a value and an accumulated gradient.
`torch.optim.Adam(model.parameters(), args.lr)` (line 121) registers exactly
the forward model's parameter ids.  `loss.backward()` (line 200) accumulates
gradients into every parameter the loss depends on — both models.
`optimizer.step()` (line 206) rewrites the value of each registered
parameter using its current value and gradient; `optimizer.zero_grad()`
(line 207) clears the gradients of the registered parameters. -/

structure PState where
  value : ℚ
  grad : ℚ
deriving DecidableEq

/-- Line 121: the single optimizer is constructed over `model.parameters()`
only, never over `model_rev.parameters()`. -/
def optimizer_param_ids (fwd_ids _rev_ids : List ℕ) : List ℕ :=
  fwd_ids

/-- `loss.backward()`: accumulate the loss gradient `g` into every
parameter. -/
def backward_pass (g : ℕ → ℚ) (store : ℕ → PState) : ℕ → PState :=
  fun i => ⟨(store i).value, (store i).grad + g i⟩

/-- `optimizer.step()`: update the value of each registered parameter from
its value and gradient; all other parameters keep their value. -/
def optimizer_step (registered : List ℕ) (upd : ℚ → ℚ → ℚ)
    (store : ℕ → PState) : ℕ → PState :=
  fun i =>
    if i ∈ registered then ⟨upd (store i).value (store i).grad, (store i).grad⟩
    else store i

/-- `optimizer.zero_grad()`: clear the gradients of the registered
parameters. -/
def optimizer_zero_grad (registered : List ℕ) (store : ℕ → PState) :
    ℕ → PState :=
  fun i => if i ∈ registered then ⟨(store i).value, 0⟩ else store i

/-- One training-loop parameter update (lines 200-207): backward pass over the
combined loss, then a step and gradient clear of the optimizer that was built
from the forward ids alone. -/
def train_param_update (fwd_ids rev_ids : List ℕ) (g : ℕ → ℚ)
    (upd : ℚ → ℚ → ℚ) (store : ℕ → PState) : ℕ → PState :=
  optimizer_zero_grad (optimizer_param_ids fwd_ids rev_ids)
    (optimizer_step (optimizer_param_ids fwd_ids rev_ids) upd
      (backward_pass g store))

/-! ### Checkpoint restore and the early-stopping controller

`best_validate` is kept as an `Option ℚ`: `none` is the initial
`float('inf')` of line 130, against which every finite perplexity compares
strictly smaller. -/

/-- Modelled from the spec: `utils.save_checkpoint` (line 231) is external to
`train.py`; per the spec, checkpoint contents include at minimum the epoch
number and the best-validation metric (plus parameter state, irrelevant
here). -/
structure Checkpoint where
  last_epoch : ℕ
  best_metric : ℚ
deriving DecidableEq

/-- Modelled from the spec: `utils.save_checkpoint(args, model, model_rev,
optimizer, epoch, valid_perplexity)` persists the epoch number and the
metric. -/
def save_checkpoint (epoch : ℕ) (metric : ℚ) : Checkpoint :=
  ⟨epoch, metric⟩

/-- Modelled from the spec: `utils.load_checkpoint` (line 124) returns the
stored state when the checkpoint file exists and `None` otherwise. -/
def load_checkpoint (file : Option Checkpoint) : Option Checkpoint :=
  file

/-- The controller state assembled at startup. -/
structure ResumeState where
  last_epoch : ℤ
  bad_epochs : ℕ
  best_validate : Option ℚ
deriving DecidableEq

/-- Lines 124-130 of `train.py`: `last_epoch` comes from the restored state
dict (or `-1`), while `bad_epochs` and `best_validate` are unconditionally
re-initialized to `0` and `float('inf')`. -/
def resume (state_dict : Option Checkpoint) : ResumeState :=
  { last_epoch :=
      match state_dict with
      | some sd => (sd.last_epoch : ℤ)
      | none => -1
    bad_epochs := 0
    best_validate := none }

/-- `valid_perplexity < best_validate` (line 234), with
`best_validate = none` playing `float('inf')`. -/
def improves (p : ℚ) : Option ℚ → Bool
  | none => true
  | some b => if p < b then true else false

/-- One epoch of the early-stopping bookkeeping (lines 234-238): on strict
improvement the best is replaced and `bad_epochs` reset to `0`, otherwise
`bad_epochs` is incremented. -/
def esStep (s : Option ℚ × ℕ) (p : ℚ) : Option ℚ × ℕ :=
  if improves p s.1 then (some p, 0) else (s.1, s.2 + 1)

/-- The epoch loop of lines 132-241 restricted to its early-stopping
dynamics: `ps` is the stream of validation perplexities the Validator would
return (its end plays `max_epoch`), and the result is the list of
`(best_validate, bad_epochs)` states after each executed epoch.  After
updating the state the controller breaks out of the loop as soon as
`bad_epochs >= args.patience` (lines 239-241). -/
def esRun (patience : ℕ) : List ℚ → Option ℚ × ℕ → List (Option ℚ × ℕ)
  | [], _ => []
  | p :: ps, s =>
    let t := esStep s p
    if patience ≤ t.2 then [t] else t :: esRun patience ps t

/-- Lines 129-130: `bad_epochs = 0`, `best_validate = float('inf')`. -/
def es_init_state : Option ℚ × ℕ :=
  (none, 0)

/-- The ordering on `best_validate` values, `none` being `float('inf')`. -/
def leInf : Option ℚ → Option ℚ → Bool
  | _, none => true
  | none, some _ => false
  | some y, some x => if y ≤ x then true else false

/-! ### Sequence shift adapter

Lines 161-165 (and identically 267-271) of `train.py`: `src_inputs` is a
clone of `src_tokens` whose row `0` is rewritten by
`src_inputs[0, 1:S] = src_tokens[0, 0:S-1]` and
`src_inputs[0, 0] = src_tokens[0, S-1]`; the adjusted lengths are
`src_lengths + (tgt_inputs.size(1) - src_tokens.size(1))`. -/

/-- The rewritten row `0`: position `0` receives the original last token and
every position `j ≥ 1` receives the original token at `j - 1`. -/
def rotate_row0 (S : ℕ) (row : Fin S → ℕ) : Fin S → ℕ :=
  fun j =>
    if _ : (j : ℕ) = 0 then row ⟨S - 1, by have := j.isLt; omega⟩
    else row ⟨(j : ℕ) - 1, by have := j.isLt; omega⟩

/-- The derived `src_inputs`: row `0` rotated, all other rows copied
unchanged. -/
def shift_src_inputs (B S : ℕ) (src_tokens : Fin B → Fin S → ℕ) :
    Fin B → Fin S → ℕ :=
  fun b => if (b : ℕ) = 0 then rotate_row0 S (src_tokens b) else src_tokens b

/-- The derived `tgt_lengths`: every entry offset by
`tgt_inputs.size(1) - src_tokens.size(1)` (Python integer arithmetic, so the
offset may be negative). -/
def shift_tgt_lengths (B : ℕ) (src_lengths : Fin B → ℤ)
    (tgt_input_len S : ℕ) : Fin B → ℤ :=
  fun b => src_lengths b + ((tgt_input_len : ℤ) - (S : ℤ))

/-! ### Helper lemmas: rotation -/

lemma ofFn_rotate_row0 (n : ℕ) (row : Fin (n + 1) → ℕ) :
    List.ofFn (rotate_row0 (n + 1) row) =
      row ⟨n, n.lt_succ_self⟩ :: List.ofFn (fun i : Fin n => row i.castSucc) := by
  rw [List.ofFn_succ]
  have hhead : rotate_row0 (n + 1) row 0 = row ⟨n, n.lt_succ_self⟩ := by
    simp [rotate_row0]
  have htail : (fun i : Fin n => rotate_row0 (n + 1) row i.succ) =
      fun i : Fin n => row i.castSucc := by
    refine funext fun i => ?_
    have hne : ((i.succ : Fin (n + 1)) : ℕ) ≠ 0 := by simp
    simp only [rotate_row0, dif_neg hne]
    exact congrArg row (Fin.ext (by simp))
  rw [hhead, htail]

lemma rotateRight_concat (l : List ℕ) (x : ℕ) :
    (l ++ [x]).rotateRight 1 = x :: l := by
  cases l with
  | nil => rfl
  | cons a t =>
    have h2 : ((a :: t) ++ [x]).length = t.length + 2 := by simp
    unfold List.rotateRight
    rw [if_neg (by rw [h2]; omega)]
    have h3 : ((a :: t) ++ [x]).length - 1 % ((a :: t) ++ [x]).length =
        (a :: t).length := by
      rw [h2, Nat.mod_eq_of_lt (by omega)]
      simp
    simp only [h3, List.take_left, List.drop_left, List.singleton_append]

lemma ofFn_rotate_row0_rotateRight (S : ℕ) (hS : 0 < S) (row : Fin S → ℕ) :
    List.ofFn (rotate_row0 S row) = (List.ofFn row).rotateRight 1 := by
  obtain ⟨n, rfl⟩ : ∃ n, S = n + 1 := ⟨S - 1, by omega⟩
  rw [ofFn_rotate_row0, List.ofFn_succ', List.concat_eq_append, rotateRight_concat]
  rfl

lemma ofFn_rotate_row0_perm (S : ℕ) (hS : 0 < S) (row : Fin S → ℕ) :
    (List.ofFn (rotate_row0 S row)).Perm (List.ofFn row) := by
  obtain ⟨n, rfl⟩ : ∃ n, S = n + 1 := ⟨S - 1, by omega⟩
  rw [ofFn_rotate_row0, List.ofFn_succ', List.concat_eq_append]
  exact (List.perm_append_singleton _ _).symm

/-! ### Helper lemmas: early-stopping dynamics -/

lemma improves_some {p b : ℚ} (h : improves p (some b) = true) : p < b := by
  by_cases hb : p < b
  · exact hb
  · simp [improves, hb] at h

lemma leInf_refl (a : Option ℚ) : leInf a a = true := by
  cases a with
  | none => rfl
  | some b => simp [leInf]

lemma esStep_leInf (s : Option ℚ × ℕ) (p : ℚ) :
    leInf (esStep s p).1 s.1 = true := by
  unfold esStep
  by_cases h : improves p s.1 = true
  · rw [if_pos h]
    cases hs : s.1 with
    | none => rfl
    | some b =>
      have := improves_some (hs ▸ h)
      simp [leInf, le_of_lt this]
  · rw [if_neg h]
    exact leInf_refl s.1

lemma esRun_dropLast_bad_lt (patience : ℕ) :
    ∀ (ps : List ℚ) (s : Option ℚ × ℕ),
      ∀ t ∈ (esRun patience ps s).dropLast, t.2 < patience := by
  intro ps
  induction ps with
  | nil => intro s t ht; simp [esRun] at ht
  | cons p ps ih =>
    intro s t ht
    simp only [esRun] at ht
    by_cases h : patience ≤ (esStep s p).2
    · rw [if_pos h] at ht
      simp at ht
    · rw [if_neg h] at ht
      cases hrest : esRun patience ps (esStep s p) with
      | nil => rw [hrest] at ht; simp at ht
      | cons q qs =>
        rw [hrest, List.dropLast_cons₂] at ht
        rcases List.mem_cons.mp ht with h1 | h2
        · subst h1; omega
        · exact ih (esStep s p) t (by rw [hrest]; exact h2)

lemma esRun_chain (patience : ℕ) :
    ∀ (ps : List ℚ) (s : Option ℚ × ℕ),
      List.Chain' (fun a b => leInf b.1 a.1 = true) (s :: esRun patience ps s) := by
  intro ps
  induction ps with
  | nil => intro s; simp [esRun]
  | cons p ps ih =>
    intro s
    simp only [esRun]
    by_cases h : patience ≤ (esStep s p).2
    · rw [if_pos h]
      exact List.chain'_cons.mpr ⟨esStep_leInf s p, List.chain'_singleton _⟩
    · rw [if_neg h]
      exact List.chain'_cons.mpr ⟨esStep_leInf s p, ih (esStep s p)⟩

/-! ### Concrete inputs used by counterexamples and witnesses -/

/-- A batch of one `2 x 2` context matrix `[[1, 2], [3, 4]]`. -/
def cexA : Tensor3 1 2 2 := fun _ => Matrix.of ![![(1 : ℚ), 2], ![3, 4]]

/-- A batch of one `2 x 2` identity matrix of encoder outputs, so that the
pair matrix `M = cexA * cexOᵀ` is `[[1, 2], [3, 4]]` itself. -/
def cexO : Tensor3 1 2 2 := fun _ => Matrix.of ![![(1 : ℚ), 0], ![0, 1]]

/-- Attention weights `[[1, 2], [3, 4]]` for one batch element. -/
def attW : Tensor3 1 2 2 := fun _ => Matrix.of ![![(1 : ℚ), 2], ![3, 4]]

/-- Encoder outputs in `[S, B, H]` layout whose batch-major transpose is the
`2 x 2` identity matrix. -/
def src_outW : Fin 2 → Fin 1 → Fin 2 → ℚ := fun s _ h => if s = h then 1 else 0

/-- The validation-perplexity sequence of the early-stopping scenario. -/
def ppl_example : List ℚ := [5, 4, 21 / 5, 43 / 10, 22 / 5, 9 / 2]

/-- A one-row batch of source tokens `[1, 2, 3]`. -/
def srcW : Fin 1 → Fin 3 → ℕ := fun _ => ![1, 2, 3]

/-- Source lengths for the one-row batch. -/
def lensW : Fin 1 → ℤ := fun _ => 3

/-! ### Claims -/

/-- C1 (counterexample): on the batch of one pairwise product matrix
`M = [[1, 2], [3, 4]]`, `calculate_diff` returns `3` — the numerator is
divided by `len(diag) = B = 1` and the denominator by
`len(diff) - len(diag) = 4 - 1 = 3` — while the claimed formula (dividing by
the diagonal element count `2` and the off-diagonal element count `2`)
yields `1`. -/
theorem C1_count_counterexample :
    calculate_diff cexA cexO = 3 ∧ spec_calculate_diff cexA cexO = 1 ∧
      calculate_diff cexA cexO ≠ spec_calculate_diff cexA cexO := by
  have h1 : calculate_diff cexA cexO = 3 := by
    norm_num [calculate_diff, cd_numerator, cd_denominator, diagL1, totalL1,
      diffM, bmm, cexA, cexO, Matrix.mul_apply, Fin.sum_univ_two, Fin.isValue,
      Matrix.transpose_apply, Matrix.vecHead, Matrix.vecTail]
  have h2 : spec_calculate_diff cexA cexO = 1 := by
    norm_num [spec_calculate_diff, diagL1, totalL1, diffM, bmm, cexA, cexO,
      Matrix.mul_apply, Fin.sum_univ_two, Fin.isValue, Matrix.transpose_apply,
      Matrix.vecHead, Matrix.vecTail]
  exact ⟨h1, h2, by rw [h1, h2]; norm_num⟩

/-- C1 (amended): each of the two ratios returned by the regularizer equals
`numerator/denominator` where the numerator is the L1-norm of the diagonal
of `M` divided by `B` (the leading dimension of the diagonal tensor, which is
what Python's `len` returns), and the denominator is the L1-norm of all of
`M` minus the L1-norm of the diagonal, divided by the total element count of
`M` minus `B`. -/
theorem C1_ratio_amended {B T S T2 S2 H : ℕ} (att : Tensor3 B T S)
    (src_out : Fin S → Fin B → Fin H → ℚ) (att_rev : Tensor3 B T2 S2)
    (src_out_rev : Fin S2 → Fin B → Fin H → ℚ) :
    (get_diff att src_out att_rev src_out_rev).1 =
      (diagL1 (bmm att (transpose01 src_out)) (transpose01 src_out_rev) / (B : ℚ)) /
        ((totalL1 (bmm att (transpose01 src_out)) (transpose01 src_out_rev) -
            diagL1 (bmm att (transpose01 src_out)) (transpose01 src_out_rev)) /
          ((B : ℚ) * T * S2 - (B : ℚ))) ∧
    (get_diff att src_out att_rev src_out_rev).2 =
      (diagL1 (bmm att_rev (transpose01 src_out_rev)) (transpose01 src_out) / (B : ℚ)) /
        ((totalL1 (bmm att_rev (transpose01 src_out_rev)) (transpose01 src_out) -
            diagL1 (bmm att_rev (transpose01 src_out_rev)) (transpose01 src_out)) /
          ((B : ℚ) * T2 * S - (B : ℚ))) :=
  ⟨rfl, rfl⟩

/-- C2 (counterexample): saving a checkpoint at epoch `3` with best metric
`4` and restoring it yields `last_epoch = 3`, but `best_validate` is
re-initialized to `float('inf')` (modelled as `none`), not to the stored
metric `4`. -/
theorem C2_restore_counterexample :
    (resume (load_checkpoint (some (save_checkpoint 3 4)))).last_epoch = 3 ∧
    (resume (load_checkpoint (some (save_checkpoint 3 4)))).best_validate = none ∧
    (resume (load_checkpoint (some (save_checkpoint 3 4)))).best_validate ≠ some 4 :=
  ⟨rfl, rfl, by simp [resume, load_checkpoint]⟩

/-- C2 (amended): after saving a checkpoint at epoch `e` with best metric `m`
and restoring it at startup, the controller resumes with `last_epoch = e`,
but `best_validate` is re-initialized to `float('inf')` regardless of `m`, so
the first early-stopping comparison accepts every perplexity as an
improvement. -/
theorem C2_restore_amended (e : ℕ) (m : ℚ) :
    (resume (load_checkpoint (some (save_checkpoint e m)))).last_epoch = (e : ℤ) ∧
    (resume (load_checkpoint (some (save_checkpoint e m)))).best_validate = none ∧
    ∀ p : ℚ,
      improves p (resume (load_checkpoint (some (save_checkpoint e m)))).best_validate =
        true :=
  ⟨rfl, rfl, fun _ => rfl⟩

/-- C3 (counterexample): for a two-sequence batch with forward cross-entropy
`2` the validator's per-batch loss (lines 275-276) differs from the
trainer-step formula `CE/num_sequences + d + CE_rev/num_sequences_rev + d_rev`
(lines 197-199): the validator does not divide the forward cross-entropy by
the sequence count, giving `2` instead of `1`. -/
theorem C3_validator_counterexample :
    valid_loss ⟨2, 0⟩ ⟨0, 0⟩ 2 ⟨0, 0⟩ ⟨0, 0⟩ ≠
      train_loss ⟨2, 0⟩ 2 ⟨0, 0⟩ 2 ⟨0, 0⟩ ⟨0, 0⟩ := by
  intro h
  have hv := congrArg Dual.val h
  norm_num [valid_loss, train_loss, get_diff_returned, Dual.divC, Dual.detach,
    Dual.add_def] at hv

/-- C3 (amended): the validator's per-batch loss equals the trainer-step
formula with the forward normalizer replaced by `1`, i.e.
`CE(output, tgt_tokens) + d + CE(output_rev, src_tokens)/num_sequences_rev +
d_rev`; only the forward cross-entropy term is left unnormalized. -/
theorem C3_validator_amended (ce ce_rev : Dual) (nseq_rev : ℚ) (d0 drev0 : Dual) :
    valid_loss ce ce_rev nseq_rev d0 drev0 =
      train_loss ce 1 ce_rev nseq_rev d0 drev0 := by
  simp [valid_loss, train_loss, Dual.divC, div_one]

/-- C4: the optimizer is built over the forward ids alone, so a full
backward/step/zero-grad cycle over the combined loss leaves the value of
every reverse-model parameter unchanged, even though the backward pass
deposits a gradient on it. -/
theorem C4_reverse_params_frame (fwd_ids rev_ids : List ℕ) (g : ℕ → ℚ)
    (upd : ℚ → ℚ → ℚ) (store : ℕ → PState) (i : ℕ) (_hi : i ∈ rev_ids)
    (hdisj : i ∉ fwd_ids) :
    (train_param_update fwd_ids rev_ids g upd store i).value = (store i).value ∧
    (backward_pass g store i).grad = (store i).grad + g i := by
  constructor
  · simp [train_param_update, optimizer_zero_grad, optimizer_step,
      optimizer_param_ids, backward_pass, hdisj]
  · rfl

/-- C4 (witness): instantiation with forward ids `[0, 1]`, reverse ids
`[2, 3]`, a concrete store, gradient and update rule. -/
theorem C4_reverse_params_frame_witness :
    (2 ∈ [2, 3] ∧ 2 ∉ [0, 1]) ∧
    ((train_param_update [0, 1] [2, 3] (fun _ => 1) (fun v gr => v - gr)
        (fun _ => ⟨5, 0⟩) 2).value = (5 : ℚ) ∧
      (backward_pass (fun _ => 1) (fun _ => ⟨5, 0⟩) 2).grad = 0 + 1) :=
  ⟨⟨by decide, by decide⟩,
    C4_reverse_params_frame [0, 1] [2, 3] (fun _ => 1) (fun v gr => v - gr)
      (fun _ => ⟨5, 0⟩) 2 (by decide) (by decide)⟩

/-- C5 (counterexample): on the perplexity sequence
`[5.0, 4.0, 4.2, 4.3, 4.4, 4.5]` with `patience = 3` the controller executes
the epoch states
`[(5, 0), (4, 0), (4, 1), (4, 2), (4, 3)]` and breaks after the fifth epoch
(`bad_epochs` reaches `3` at the fifth perplexity `4.4`), so it does not halt
after the sixth epoch. -/
theorem C5_sixth_epoch_counterexample :
    esRun 3 ppl_example es_init_state =
      [(some 5, 0), (some 4, 0), (some 4, 1), (some 4, 2), (some 4, 3)] ∧
    (esRun 3 ppl_example es_init_state).length ≠ 6 := by
  have h : esRun 3 ppl_example es_init_state =
      [(some 5, 0), (some 4, 0), (some 4, 1), (some 4, 2), (some 4, 3)] := by
    norm_num [ppl_example, esRun, esStep, improves, es_init_state]
  exact ⟨h, by rw [h]; simp⟩

/-- C5 (amended): on the perplexity sequence `[5.0, 4.0, 4.2, 4.3, 4.4, 4.5]`
with `patience = 3` the controller halts exactly after the fifth epoch (the
third consecutive non-improvement after the best at epoch 2), with
`best_validate = 4.0` and `bad_epochs = 3`; the sixth perplexity is never
consumed. -/
theorem C5_fifth_epoch_amended :
    (esRun 3 ppl_example es_init_state).length = 5 ∧
    (esRun 3 ppl_example es_init_state).getLast? = some (some 4, 3) := by
  have h : esRun 3 ppl_example es_init_state =
      [(some 5, 0), (some 4, 0), (some 4, 1), (some 4, 2), (some 4, 3)] := by
    norm_num [ppl_example, esRun, esStep, improves, es_init_state]
  rw [h]
  exact ⟨rfl, rfl⟩

/-- C6: for every batch with at least one row and one column, the shift
adapter rotates row 0 one position to the right (`List.rotateRight 1`: the
last token moves to position 0, all others shift up by one index), making the
new row a permutation of the original row; every other row is unchanged, and
every adjusted length equals `src_lengths + (tgt_input_len - S)`. -/
theorem C6_shift_adapter (B S : ℕ) (hB : 0 < B) (hS : 0 < S)
    (src_tokens : Fin B → Fin S → ℕ) (src_lengths : Fin B → ℤ)
    (tgt_input_len : ℕ) :
    List.ofFn (shift_src_inputs B S src_tokens ⟨0, hB⟩) =
      (List.ofFn (src_tokens ⟨0, hB⟩)).rotateRight 1 ∧
    (List.ofFn (shift_src_inputs B S src_tokens ⟨0, hB⟩)).Perm
      (List.ofFn (src_tokens ⟨0, hB⟩)) ∧
    (∀ b : Fin B, (b : ℕ) ≠ 0 → shift_src_inputs B S src_tokens b = src_tokens b) ∧
    ∀ b : Fin B, shift_tgt_lengths B src_lengths tgt_input_len S b =
      src_lengths b + ((tgt_input_len : ℤ) - (S : ℤ)) := by
  have hrow : shift_src_inputs B S src_tokens ⟨0, hB⟩ =
      rotate_row0 S (src_tokens ⟨0, hB⟩) := by
    simp [shift_src_inputs]
  refine ⟨?_, ?_, ?_, fun b => rfl⟩
  · rw [hrow]
    exact ofFn_rotate_row0_rotateRight S hS _
  · rw [hrow]
    exact ofFn_rotate_row0_perm S hS _
  · intro b hb
    simp [shift_src_inputs, hb]

/-- C6 (witness): the batch `[[1, 2, 3]]` with `src_lengths = [3]` and
decoder-input length `4`. -/
theorem C6_shift_adapter_witness :
    (0 < 1 ∧ 0 < 3) ∧
    (List.ofFn (shift_src_inputs 1 3 srcW ⟨0, Nat.one_pos⟩) =
        (List.ofFn (srcW ⟨0, Nat.one_pos⟩)).rotateRight 1 ∧
      (List.ofFn (shift_src_inputs 1 3 srcW ⟨0, Nat.one_pos⟩)).Perm
        (List.ofFn (srcW ⟨0, Nat.one_pos⟩)) ∧
      (∀ b : Fin 1, (b : ℕ) ≠ 0 → shift_src_inputs 1 3 srcW b = srcW b) ∧
      ∀ b : Fin 1, shift_tgt_lengths 1 lensW 4 3 b =
        lensW b + ((4 : ℤ) - (3 : ℤ))) :=
  ⟨⟨Nat.one_pos, by decide⟩,
    C6_shift_adapter 1 3 Nat.one_pos (by decide) srcW lensW 4⟩

/-- C7 (counterexample): on the row `[1, 2, 3]` the derived `src_inputs` row
is `[3, 1, 2]` — the LAST element moved to position 0 — whereas a
one-position backward rotation (`List.rotateLeft 1`, position 0 moving to the
last position) would give `[2, 3, 1]`. -/
theorem C7_backward_counterexample :
    List.ofFn (shift_src_inputs 1 3 srcW 0) = [3, 1, 2] ∧
    (List.ofFn (srcW 0)).rotateLeft 1 = [2, 3, 1] ∧
    List.ofFn (shift_src_inputs 1 3 srcW 0) ≠ (List.ofFn (srcW 0)).rotateLeft 1 := by
  refine ⟨by decide, by decide, by decide⟩

/-- C7 (amended): the derived rotated row is a one-position FORWARD (right)
rotation of the source row: the element at the last position moves to
position 0 and all others shift right by one index. -/
theorem C7_forward_rotation_amended (S : ℕ) (hS : 0 < S) (row : Fin S → ℕ) :
    List.ofFn (rotate_row0 S row) = (List.ofFn row).rotateRight 1 :=
  ofFn_rotate_row0_rotateRight S hS row

/-- C7 (witness): the forward-rotation statement at the concrete row
`[1, 2, 3]`. -/
theorem C7_forward_rotation_amended_witness :
    0 < 3 ∧
      List.ofFn (rotate_row0 3 (srcW 0)) = (List.ofFn (srcW 0)).rotateRight 1 :=
  ⟨by decide, C7_forward_rotation_amended 3 (by decide) (srcW 0)⟩

/-- C8: the regularizer terms enter the loss detached, so the derivative of
the combined training loss with respect to any model parameter equals the
derivative of the loss with the `d` and `d_rev` terms removed, while their
numeric values still enter the loss total. -/
theorem C8_detached_regularizer (ce : Dual) (nseq : ℚ) (ce_rev : Dual)
    (nseq_rev : ℚ) (d0 drev0 : Dual) :
    (train_loss ce nseq ce_rev nseq_rev d0 drev0).grad =
      (ce.divC nseq + ce_rev.divC nseq_rev).grad ∧
    (train_loss ce nseq ce_rev nseq_rev d0 drev0).val =
      ce.val / nseq + d0.val + ce_rev.val / nseq_rev + drev0.val := by
  constructor
  · simp [train_loss, get_diff_returned, Dual.detach, Dual.divC, Dual.add_def]
  · rfl

/-- C9: when both off-diagonal mean denominators are positive, the two values
returned by `get_diff` are non-negative, and both are unchanged when the two
attention-weight tensors are multiplied by the same positive constant. -/
theorem C9_nonneg_scale_invariant {B T S T2 S2 H : ℕ} (att : Tensor3 B T S)
    (src_out : Fin S → Fin B → Fin H → ℚ) (att_rev : Tensor3 B T2 S2)
    (src_out_rev : Fin S2 → Fin B → Fin H → ℚ) (c : ℚ) (hc : 0 < c)
    (hden : 0 < cd_denominator (bmm att (transpose01 src_out)) (transpose01 src_out_rev))
    (hden_rev :
      0 < cd_denominator (bmm att_rev (transpose01 src_out_rev)) (transpose01 src_out)) :
    0 ≤ (get_diff att src_out att_rev src_out_rev).1 ∧
    0 ≤ (get_diff att src_out att_rev src_out_rev).2 ∧
    get_diff (scaleT c att) src_out (scaleT c att_rev) src_out_rev =
      get_diff att src_out att_rev src_out_rev := by
  refine ⟨calculate_diff_nonneg _ _ hden, calculate_diff_nonneg _ _ hden_rev, ?_⟩
  unfold get_diff
  rw [bmm_scaleT, bmm_scaleT, calculate_diff_scaleT c hc, calculate_diff_scaleT c hc]

/-- C9 (witness): attention `[[1, 2], [3, 4]]` in both directions against
identity encoder outputs (both denominators are `5/3`), scaled by `c = 2`. -/
theorem C9_nonneg_scale_invariant_witness :
    ((0 : ℚ) < 2 ∧
      0 < cd_denominator (bmm attW (transpose01 src_outW)) (transpose01 src_outW)) ∧
    (0 ≤ (get_diff attW src_outW attW src_outW).1 ∧
      0 ≤ (get_diff attW src_outW attW src_outW).2 ∧
      get_diff (scaleT 2 attW) src_outW (scaleT 2 attW) src_outW =
        get_diff attW src_outW attW src_outW) := by
  have hden : 0 < cd_denominator (bmm attW (transpose01 src_outW)) (transpose01 src_outW) := by
    norm_num [cd_denominator, diagL1, totalL1, diffM, bmm, transpose01, attW,
      src_outW, Matrix.mul_apply, Fin.sum_univ_two, Fin.isValue,
      Matrix.transpose_apply, Matrix.vecHead, Matrix.vecTail]
  exact ⟨⟨by norm_num, hden⟩,
    C9_nonneg_scale_invariant attW src_outW attW src_outW 2 (by norm_num) hden hden⟩

/-- C10: across every run of the early-stopping controller, (a) `bad_epochs`
resets to 0 whenever a perplexity strictly below the current best is
observed, (b) every state from which the controller goes on to run another
epoch has `bad_epochs < patience` — the run halts as soon as `bad_epochs`
reaches the patience — and (c) `best_validate` is non-increasing along the
run (with `none` playing `float('inf')`). -/
theorem C10_controller_invariants (patience : ℕ) (ps : List ℚ)
    (s0 s : Option ℚ × ℕ) (p : ℚ) :
    (improves p s.1 = true → esStep s p = (some p, 0)) ∧
    (∀ t ∈ (esRun patience ps s0).dropLast, t.2 < patience) ∧
    List.Chain' (fun a b => leInf b.1 a.1 = true) (s0 :: esRun patience ps s0) :=
  ⟨fun h => by simp [esStep, h],
    esRun_dropLast_bad_lt patience ps s0,
    esRun_chain patience ps s0⟩

/-- C10 (witness): instantiation with `patience = 3`, the example perplexity
stream, the initial state, and an improving observation `1 < 2`. -/
theorem C10_controller_invariants_witness :
    improves 1 (some 2) = true ∧
    esStep ((some 2 : Option ℚ), 5) 1 = (some 1, 0) ∧
    (∀ t ∈ (esRun 3 ppl_example es_init_state).dropLast, t.2 < 3) ∧
    List.Chain' (fun a b => leInf b.1 a.1 = true)
      (es_init_state :: esRun 3 ppl_example es_init_state) := by
  have himp : improves 1 ((some 2 : Option ℚ)) = true := by norm_num [improves]
  have h := C10_controller_invariants 3 ppl_example es_init_state (some 2, 5) 1
  exact ⟨himp, h.1 himp, h.2.1, h.2.2⟩

end ATMT
